import Mathlib

/-!
Verification of the jiracsv Analysis & Check Engine.

Shallow embedding of the Go sources:
* `CheckResultStatus`, `CheckResult` and its mutators `SetReady` / `SetStatus` /
  `AddMessage`, the rule evaluators (`checkAlongside` … `checkDesign`) and
  `NewCheckResult` — from the check-engine file (package `analysis`).
* `getIssueCommentStatus` — from `analysis/utils.go`.
* `FilterByFunction`, `AnyImpediment`, `StoryPoints`, `Progress`,
  `StoryPointsProgress` — from `jira/collection.go`.
* The comment-status aggregation loop — from `analysis/analisys.go`
  (`AnalyzeIssue`, the `append(linkedIssues, assessment.Issue)` loop).
* Issue helpers (`IsType`, `InStatus`, `IsActive`, `IsResolved`,
  `IsPrioritized`, `HasStoryPoints`, `HasComponent`, `Ready`) — from the
  jira issue file.

The analysis builder is embedded from `AnalyzeIssue`
(`analysis/analisys.go`): its obsolete filter, component scoping, activity
filter (Story/Task), zero-component scan and comment aggregation, bridged to
the field names the staged check engine consumes.  Only `Issue.IsCommitted`
is absent from the sources; it is modelled from the specification and marked
`Modelled from the spec:` below.

Go machine integers only ever hold small counts and story-point values here;
they are embedded as `Int` (no overflow-relevant arithmetic occurs).
Timestamps are embedded as `Nat` (only equality of returned values matters).
-/

namespace Jiracsv

/-- `CheckResultStatus` from the check-engine source: iota constants
NONE = 0, GREEN = 1, YELLOW = 2, RED = 3. -/
inductive CheckResultStatus : Type where
  | NONE : CheckResultStatus
  | GREEN : CheckResultStatus
  | YELLOW : CheckResultStatus
  | RED : CheckResultStatus
deriving DecidableEq, Repr

/-- The underlying Go `int` value of a `CheckResultStatus` (iota order). -/
def sval : CheckResultStatus → Nat
  | .NONE => 0
  | .GREEN => 1
  | .YELLOW => 2
  | .RED => 3

/-- Maximum of two statuses in the NONE < GREEN < YELLOW < RED order
(the merge performed by `SetStatus`). -/
def statusMax (a b : CheckResultStatus) : CheckResultStatus :=
  if sval b > sval a then b else a

/-- `CheckResult` accumulator from the check-engine source. -/
structure CheckResult : Type where
  Ready : Bool
  Status : CheckResultStatus
  Messages : List String
deriving DecidableEq, Repr

/-- `func (r *CheckResult) SetReady(ready bool)`:
`if r.Ready && !ready { r.Ready = false }`. -/
def CheckResult.SetReady (r : CheckResult) (ready : Bool) : CheckResult :=
  if r.Ready && !ready then { r with Ready := false } else r

/-- `func (r *CheckResult) SetStatus(status CheckResultStatus)`:
`if status > r.Status { r.Status = status }`. -/
def CheckResult.SetStatus (r : CheckResult) (status : CheckResultStatus) : CheckResult :=
  if sval status > sval r.Status then { r with Status := status } else r

/-- `func (r *CheckResult) AddMessage(message string)`: append to `Messages`. -/
def CheckResult.AddMessage (r : CheckResult) (message : String) : CheckResult :=
  { r with Messages := r.Messages ++ [message] }

/-- Embedding of Go's `strings.HasPrefix`: whether `pre` is a prefix of `s`
(stated over the character lists so that it evaluates by reduction). -/
def hasPrefix (s pre : String) : Bool := List.isPrefixOf pre.toList s.toList

/-- A comment on an issue: body text and last-updated timestamp. -/
structure Comment : Type where
  body : String
  updated : Nat
deriving DecidableEq, Repr

/-- `IssueReadiness` flags (jira issue source). -/
structure IssueReadiness : Type where
  Development : Bool
  Product : Bool
  Quality : Bool
  Experience : Bool
  Documentation : Bool
  Support : Bool
deriving DecidableEq, Repr

/-- `IssuePlanning` flags, with the field names the check engine reads
(`NoFeature`, `NoQuality`, `NoDocumentation`). -/
structure IssuePlanning : Type where
  NoFeature : Bool
  NoQuality : Bool
  NoDocumentation : Bool
deriving DecidableEq, Repr

/-- `IssueApprovals` flags (jira issue source; the five ack flags). -/
structure IssueApprovals : Type where
  Development : Bool
  Product : Bool
  Quality : Bool
  Experience : Bool
  Documentation : Bool
deriving DecidableEq, Repr

/-- The parts of `jira.IssueFields` the engine reads.  `status`, `resolution`
and `priority` are the names of the respective objects, `none` standing for a
nil pointer; `fixVersions` and `components` are the lists of names;
`epicKey` is `Fields.Epic` (`none` = nil, otherwise the key);
`commentsNil` records whether the raw `Fields.Comments` pointer is nil;
`projectKey` is the key of the project the issue belongs to. -/
structure IssueFields : Type where
  typeName : String
  status : Option String
  resolution : Option String
  priority : Option String
  description : String
  fixVersions : List String
  components : List String
  epicKey : Option String
  commentsNil : Bool
  projectKey : String
deriving DecidableEq, Repr

/-- The non-recursive fields of a jira `Issue` used by the engine.
`marketProblem` is `none` for a nil `MarketProblem` pointer. -/
structure IssueCore : Type where
  fields : IssueFields
  StoryPoints : Int
  Readiness : IssueReadiness
  Planning : IssuePlanning
  Approvals : IssueApprovals
  Design : String
  QEAssignee : String
  Acceptance : String
  Owner : String
  Impediment : Bool
  marketProblem : Option String
  Comments : List Comment
deriving DecidableEq, Repr

/-- A jira `Issue`: its own fields plus the linked child issues. -/
inductive Issue : Type where
  | mk (core : IssueCore) (linkedIssues : List Issue)

def Issue.core : Issue → IssueCore
  | .mk c _ => c

def Issue.linkedIssues : Issue → List Issue
  | .mk _ l => l

def Issue.Fields (i : Issue) : IssueFields := i.core.fields

def Issue.StoryPoints (i : Issue) : Int := i.core.StoryPoints

def Issue.Readiness (i : Issue) : IssueReadiness := i.core.Readiness

def Issue.Planning (i : Issue) : IssuePlanning := i.core.Planning

def Issue.Approvals (i : Issue) : IssueApprovals := i.core.Approvals

def Issue.Design (i : Issue) : String := i.core.Design

def Issue.QEAssignee (i : Issue) : String := i.core.QEAssignee

def Issue.Acceptance (i : Issue) : String := i.core.Acceptance

def Issue.Owner (i : Issue) : String := i.core.Owner

def Issue.Impediment (i : Issue) : Bool := i.core.Impediment

def Issue.MarketProblem (i : Issue) : Option String := i.core.marketProblem

def Issue.Comments (i : Issue) : List Comment := i.core.Comments

/-- `NoStoryPoints int = -1`: sentinel for "no story points set". -/
def NoStoryPoints : Int := -1

/-- Issue type names (jira issue source constants). -/
def IssueTypeEpic : String := "Epic"

def IssueTypeStory : String := "Story"

def IssueTypeTask : String := "Task"

def IssueTypeBug : String := "Bug"

/-- Issue status names (jira issue source constants). -/
def IssueStatusDone : String := "Done"

def IssueStatusObsolete : String := "Obsolete"

/-- `func (i *Issue) IsType(tp IssueType) bool`. -/
def Issue.IsType (i : Issue) (tp : String) : Bool :=
  decide (i.Fields.typeName = tp)

/-- `func (i *Issue) InStatus(status IssueStatus) bool`:
`i.Fields.Status != nil && IssueStatus(i.Fields.Status.Name) == status`. -/
def Issue.InStatus (i : Issue) (status : String) : Bool :=
  decide (i.Fields.status = some status)

/-- `func (i *Issue) IsActive() bool`: status name in the active set.
(The Go code dereferences `Fields.Status` unconditionally; per the spec the
engine is never invoked on an issue with a missing status, so a nil status is
embedded as inactive.) -/
def Issue.IsActive (i : Issue) : Bool :=
  match i.Fields.status with
  | some n =>
      decide (n = "In Progress") || decide (n = "Feature Complete") ||
      decide (n = "Code Review") || decide (n = "QE Review")
  | none => false

/-- `func (i *Issue) IsResolved() bool`: resolution present and named Done. -/
def Issue.IsResolved (i : Issue) : Bool :=
  decide (i.Fields.resolution = some "Done")

/-- `func (i *Issue) IsPrioritized() bool`. -/
def Issue.IsPrioritized (i : Issue) : Bool :=
  match i.Fields.priority with
  | some p => if p = "Unprioritized" ∨ p = "" then false else true
  | none => true

/-- `func (i *Issue) HasStoryPoints() bool`: `i.StoryPoints > NoStoryPoints`. -/
def Issue.HasStoryPoints (i : Issue) : Bool :=
  decide (i.StoryPoints > NoStoryPoints)

/-- `func (i *Issue) HasComponent(component string) bool`. -/
def Issue.HasComponent (i : Issue) (component : String) : Bool :=
  i.Fields.components.contains component

/-- `func (i *Issue) Ready() bool`: all six readiness flags. -/
def Issue.Ready (i : Issue) : Bool :=
  i.Readiness.Development && i.Readiness.Product && i.Readiness.Quality &&
  i.Readiness.Experience && i.Readiness.Documentation && i.Readiness.Support

/-- Modelled from the spec: `IsCommitted` is absent from the sources (only its
caller `checkApprovals` is present); per the spec the Approvals rule fires
when "not all 5 approval flags" are true, so `IsCommitted` is the conjunction
of the five approval flags. -/
def Issue.IsCommitted (i : Issue) : Bool :=
  i.Approvals.Development && i.Approvals.Product && i.Approvals.Quality &&
  i.Approvals.Experience && i.Approvals.Documentation

/-- `IssueCollection`: ordered sequence of issues. -/
abbrev IssueCollection : Type := List Issue

/-- `func (c IssueCollection) FilterByFunction(fn)`: keep the issues
satisfying `fn`, preserving order. -/
def IssueCollection.FilterByFunction (c : IssueCollection) (fn : Issue → Bool) :
    IssueCollection :=
  List.filter fn c

/-- `func (c IssueCollection) AnyImpediment() bool`: true iff any issue in
the collection (with no status filtering) has the impediment flag. -/
def IssueCollection.AnyImpediment (c : IssueCollection) : Bool :=
  List.any c (fun i => i.Impediment)

/-- `func (c IssueCollection) StoryPoints() int`: sum of the story points of
the issues that have them defined. -/
def IssueCollection.StoryPoints (c : IssueCollection) : Int :=
  List.foldl (fun points i =>
    if i.HasStoryPoints then points + i.StoryPoints else points) 0 c

/-- `Progress` from `jira/progress.go`: `Status` is the completed count
(the spec's `completed`), `Total` the total, `Unknown` the unknown count. -/
structure Progress : Type where
  Status : Int
  Total : Int
  Unknown : Int
deriving DecidableEq, Repr

/-- One iteration of the `Progress()` loop in `jira/collection.go`. -/
def progressStep (p : Progress) (i : Issue) : Progress :=
  if i.InStatus IssueStatusObsolete then p
  else
    let p := { p with Total := p.Total + 1 }
    if i.IsResolved then { p with Status := p.Status + 1 } else p

/-- `func (c IssueCollection) Progress() Progress` (count progress). -/
def IssueCollection.ProgressOf (c : IssueCollection) : Progress :=
  List.foldl progressStep ⟨0, 0, 0⟩ c

/-- One iteration of the `StoryPointsProgress()` loop in `jira/collection.go`. -/
def storyPointsStep (p : Progress) (i : Issue) : Progress :=
  if !(i.IsType IssueTypeStory) || i.InStatus IssueStatusObsolete then p
  else if i.HasStoryPoints then
    let p := { p with Total := p.Total + i.StoryPoints }
    if i.IsResolved then { p with Status := p.Status + i.StoryPoints } else p
  else { p with Unknown := p.Unknown + 1 }

/-- `func (c IssueCollection) StoryPointsProgress() Progress`. -/
def IssueCollection.StoryPointsProgress (c : IssueCollection) : Progress :=
  List.foldl storyPointsStep ⟨0, 0, 0⟩ c

/-- The body of the comment loop in `getIssueCommentStatus`
(`analysis/utils.go`): classify one comment by its body prefix. -/
def commentSeverity (c : Comment) : CheckResultStatus :=
  if hasPrefix c.body "GREEN:" then .GREEN
  else if hasPrefix c.body "YELLOW:" then .YELLOW
  else if hasPrefix c.body "RED:" then .RED
  else .NONE

/-- The comment loop of `getIssueCommentStatus` (`analysis/utils.go`),
already oriented most-recent-first: return the signal of the first
recognized comment, skipping unrecognized ones. -/
def commentScan : List Comment → CheckResultStatus × Option Nat
  | [] => (.NONE, none)
  | c :: rest =>
    if hasPrefix c.body "GREEN:" then (.GREEN, some c.updated)
    else if hasPrefix c.body "YELLOW:" then (.YELLOW, some c.updated)
    else if hasPrefix c.body "RED:" then (.RED, some c.updated)
    else commentScan rest

/-- `func getIssueCommentStatus(issue *jira.Issue)` (`analysis/utils.go`):
nil raw comments field short-circuits; otherwise the parsed comment list is
traversed from the last element (most recent) down to the first. -/
def getIssueCommentStatus (issue : Issue) : CheckResultStatus × Option Nat :=
  if issue.Fields.commentsNil then (.NONE, none)
  else commentScan issue.Comments.reverse

/-- One iteration of the comment-status aggregation loop in `AnalyzeIssue`
(`analysis/analisys.go`): keep the new signal only when strictly more
severe than the current one. -/
def aggStep (acc : CheckResultStatus × Option Nat) (i : Issue) :
    CheckResultStatus × Option Nat :=
  if sval (getIssueCommentStatus i).1 > sval acc.1 then getIssueCommentStatus i
  else acc

/-- The comment-status aggregation loop of `AnalyzeIssue`
(`analysis/analisys.go`): fold `aggStep` over the issues, starting from the
no-signal state. -/
def aggregateCommentStatus (issues : List Issue) : CheckResultStatus × Option Nat :=
  List.foldl aggStep (.NONE, none) issues

/-- `IssueAnalysis` as consumed by the check engine: the epic, the optional
scoping component, the activity count, the two completion metrics, the
missing-component flag and the detected comment signal. -/
structure IssueAnalysis : Type where
  Issue : Issue
  Component : Option String
  NumActivities : Int
  IssuesCompletion : Progress
  PointsCompletion : Progress
  IssueNoComponent : Bool
  CommentStatus : CheckResultStatus
  CommentDate : Option Nat

/-- `allLinkedIssues` from `AnalyzeIssue` (`analysis/analisys.go`, first
filter): the epic's linked issues excluding those in Obsolete status. -/
def allLinkedIssues (issue : Issue) : IssueCollection :=
  IssueCollection.FilterByFunction issue.linkedIssues
    (fun i => !(i.InStatus IssueStatusObsolete))

/-- `linkedIssues` from `AnalyzeIssue` (`analysis/analisys.go`, component
scoping): when a non-empty component name is supplied, keep only the
non-Epic issues carrying that component; otherwise all of
`allLinkedIssues`. -/
def scopedIssues (issue : Issue) (component : Option String) : IssueCollection :=
  match component with
  | some c =>
    if c ≠ "" then
      IssueCollection.FilterByFunction (allLinkedIssues issue)
        (fun i => i.HasComponent c && !(i.IsType IssueTypeEpic))
    else allLinkedIssues issue
  | none => allLinkedIssues issue

/-- The `linkedActivities` predicate of `AnalyzeIssue`
(`analysis/analisys.go`): an issue of type Story or Task — Bug-typed issues
are not counted. -/
def isActivity (i : Issue) : Bool :=
  i.IsType IssueTypeStory || i.IsType IssueTypeTask

/-- `AnalyzeIssue` (`analysis/analisys.go`): the derivation step feeding the
check engine.  The staged builder records `NoActivities =
(linkedActivities.Len() == 0)` while the staged engine consumes the count
`NumActivities`; the count of `linkedActivities` is embedded so the two
agree.  The builder's `LinkedIssues.Total/Completed` and
`StoryPoints.Total/Completed` pairs are embedded as the
`IssuesCompletion`/`PointsCompletion` progress values the engine reads (the
builder tracks a `Complete` flag rather than an unknown counter, so
`Unknown` is 0 here).  `IssueNoComponent` is set when any issue of
`allLinkedIssues` has zero components — the loop performs no project
comparison.  The comment signal is the aggregation loop over the scoped
issues plus the epic itself. -/
def NewIssueAnalysis (issue : Issue) (component : Option String) : IssueAnalysis :=
  let sc := scopedIssues issue component
  let linkedIssuesDone := IssueCollection.FilterByFunction sc
    (fun i => i.InStatus IssueStatusDone)
  let linkedActivities := IssueCollection.FilterByFunction sc isActivity
  let linkedActivitiesDone := IssueCollection.FilterByFunction linkedActivities
    (fun i => i.InStatus IssueStatusDone)
  let comment := aggregateCommentStatus (sc ++ [issue])
  { Issue := issue
    Component := component
    NumActivities := Int.ofNat (List.length linkedActivities)
    IssuesCompletion := ⟨Int.ofNat (List.length linkedIssuesDone),
      Int.ofNat (List.length sc), 0⟩
    PointsCompletion := ⟨IssueCollection.StoryPoints linkedActivitiesDone,
      IssueCollection.StoryPoints linkedActivities, 0⟩
    IssueNoComponent := List.any (allLinkedIssues issue)
      (fun i => List.isEmpty i.Fields.components)
    CommentStatus := comment.1
    CommentDate := comment.2 }

/-- A primitive accumulator operation issued by a rule evaluator. -/
inductive Op : Type where
  | setReady (ready : Bool) : Op
  | setStatus (status : CheckResultStatus) : Op
  | addMessage (message : String) : Op
deriving DecidableEq, Repr

/-- Apply one primitive operation to the accumulator. -/
def CheckResult.applyOp (r : CheckResult) : Op → CheckResult
  | .setReady b => r.SetReady b
  | .setStatus s => r.SetStatus s
  | .addMessage m => r.AddMessage m

/-- Run a sequence of primitive operations on the accumulator. -/
def CheckResult.runOps (r : CheckResult) (ops : List Op) : CheckResult :=
  List.foldl CheckResult.applyOp r ops

/-- `checkAlongside`: one `ALONGSIDE` message if any fix-version name starts
with "Alongside" (the Go loop returns after the first match). -/
def checkAlongside (a : IssueAnalysis) : List Op :=
  if a.Issue.Fields.fixVersions.any (fun v => hasPrefix v "Alongside") then
    [.addMessage "ALONGSIDE"]
  else []

/-- `checkVersion`: no fix-version → not ready, `NOVERSION`; more than one →
`MULTIVERSION`. -/
def checkVersion (a : IssueAnalysis) : List Op :=
  (if a.Issue.Fields.fixVersions.length = 0 then
    [.setReady false, .addMessage "NOVERSION"]
  else []) ++
  (if a.Issue.Fields.fixVersions.length > 1 then [.addMessage "MULTIVERSION"] else [])

/-- `checkActivities`: epic with `NumActivities == 0` → not ready, `NOSTORIES`. -/
def checkActivities (a : IssueAnalysis) : List Op :=
  if a.Issue.IsType IssueTypeEpic && decide (a.NumActivities = 0) then
    [.setReady false, .addMessage "NOSTORIES"]
  else []

/-- `checkDescription`: empty description → not ready, `NODESCRIPTION`. -/
def checkDescription (a : IssueAnalysis) : List Op :=
  if a.Issue.Fields.description = "" then
    [.setReady false, .addMessage "NODESCRIPTION"]
  else []

/-- `checkReadiness`: epic not Ready-Ready → not ready, `NOTREADY`. -/
def checkReadiness (a : IssueAnalysis) : List Op :=
  if a.Issue.IsType IssueTypeEpic && !a.Issue.Ready then
    [.setReady false, .addMessage "NOTREADY"]
  else []

/-- `checkApprovals`: epic not committed → status RED, `NOACKS`. -/
def checkApprovals (a : IssueAnalysis) : List Op :=
  if a.Issue.IsType IssueTypeEpic && !a.Issue.IsCommitted then
    [.setStatus .RED, .addMessage "NOACKS"]
  else []

/-- `checkDeliveryOwner`: empty owner → not ready, status RED,
`NODELIVERYOWNER`. -/
def checkDeliveryOwner (a : IssueAnalysis) : List Op :=
  if a.Issue.Owner = "" then
    [.setReady false, .setStatus .RED, .addMessage "NODELIVERYOWNER"]
  else []

/-- `checkPlanning` (present in the source but commented out of the list). -/
def checkPlanning (a : IssueAnalysis) : List Op :=
  (if a.Issue.Planning.NoQuality then [.addMessage "NOQE"] else []) ++
  (if a.Issue.Planning.NoFeature then [.addMessage "NOFEATURE"] else []) ++
  (if a.Issue.Planning.NoDocumentation then [.addMessage "NODOC"] else [])

/-- `checkQEAssignee`: with the no-quality planning flag a QE assignee must
be absent, otherwise one must be present. -/
def checkQEAssignee (a : IssueAnalysis) : List Op :=
  if a.Issue.Planning.NoQuality then
    if a.Issue.QEAssignee ≠ "" then [.setReady false, .addMessage "NOQEMISMATCH"]
    else []
  else if a.Issue.QEAssignee = "" then
    [.setReady false, .setStatus .RED, .addMessage "NOQEASSIGNEE"]
  else []

/-- `checkAcceptanceCriteria`: empty acceptance criteria → not ready,
status RED, `NOCRITERIA`. -/
def checkAcceptanceCriteria (a : IssueAnalysis) : List Op :=
  if a.Issue.Acceptance = "" then
    [.setReady false, .setStatus .RED, .addMessage "NOCRITERIA"]
  else []

/-- `checkPriority`: not prioritized → not ready, status RED, `NOPRIORITY`. -/
def checkPriority (a : IssueAnalysis) : List Op :=
  if !a.Issue.IsPrioritized then
    [.setReady false, .setStatus .RED, .addMessage "NOPRIORITY"]
  else []

/-- `checkStarted`: neither active nor Done → status YELLOW, `NOTSTARTED`. -/
def checkStarted (a : IssueAnalysis) : List Op :=
  if !a.Issue.IsActive && !(a.Issue.InStatus IssueStatusDone) then
    [.setStatus .YELLOW, .addMessage "NOTSTARTED"]
  else []

/-- `checkStoryPoints` (present in the source but commented out of the list). -/
def checkStoryPoints (a : IssueAnalysis) : List Op :=
  if a.PointsCompletion.Unknown > 0 then [.addMessage "NOSTORYPOINTS"] else []

/-- `checkImpediment`: the epic's own flag, or `AnyImpediment` over the raw
linked-issue collection (no status filtering) → status RED, `IMPEDIMENT`. -/
def checkImpediment (a : IssueAnalysis) : List Op :=
  if a.Issue.Impediment || IssueCollection.AnyImpediment a.Issue.linkedIssues then
    [.setStatus .RED, .addMessage "IMPEDIMENT"]
  else []

/-- `checkMarketProblem`: epic with nil market problem → not ready,
`NOMARKETPROBLEM`. -/
def checkMarketProblem (a : IssueAnalysis) : List Op :=
  if a.Issue.IsType IssueTypeEpic && Option.isNone a.Issue.MarketProblem then
    [.setReady false, .addMessage "NOMARKETPROBLEM"]
  else []

/-- `checkIssueComponent`: the analysis flag → not ready, `ISSUENOCOMPONENT`. -/
def checkIssueComponent (a : IssueAnalysis) : List Op :=
  if a.IssueNoComponent then [.setReady false, .addMessage "ISSUENOCOMPONENT"]
  else []

/-- `checkMultiComponent`: with a scoping component, the epic must declare
exactly one component. -/
def checkMultiComponent (a : IssueAnalysis) : List Op :=
  match a.Component with
  | none => []
  | some _ =>
    if a.Issue.Fields.components.length ≠ 1 then
      [.setReady false, .setStatus .YELLOW, .addMessage "MULTICOMPONENT"]
    else []

/-- `checkDone`: for an epic in Done status, incomplete progress → status RED,
`NOTDONE`; complete progress → merge GREEN. -/
def checkDone (a : IssueAnalysis) : List Op :=
  if !(a.Issue.InStatus IssueStatusDone) then []
  else if a.IssuesCompletion.Status ≠ a.IssuesCompletion.Total ∨
          a.PointsCompletion.Status ≠ a.PointsCompletion.Total then
    [.setStatus .RED, .addMessage "NOTDONE"]
  else [.setStatus .GREEN]

/-- `checkStartedStories`: an active epic must have at least one
active-or-Done linked issue (scoped by component when given). -/
def checkStartedStories (a : IssueAnalysis) : List Op :=
  if !(a.Issue.IsType IssueTypeEpic) || !a.Issue.IsActive then []
  else
    let linked :=
      match a.Component with
      | some c => IssueCollection.FilterByFunction a.Issue.linkedIssues
          (fun i => i.HasComponent c)
      | none => a.Issue.linkedIssues
    let active := IssueCollection.FilterByFunction linked
      (fun i => i.IsActive || i.InStatus IssueStatusDone)
    if active.length = 0 then [.setStatus .RED, .addMessage "NOACTIVESTORIES"]
    else []

/-- `checkLinkedEpic`: a Story with no epic link → not ready, `NOEPIC`. -/
def checkLinkedEpic (a : IssueAnalysis) : List Op :=
  if !(a.Issue.IsType IssueTypeStory) then []
  else
    match a.Issue.Fields.epicKey with
    | none => [.setReady false, .addMessage "NOEPIC"]
    | some k => if k = "" then [.setReady false, .addMessage "NOEPIC"] else []

/-- `checkStatusComment`: no detected signal → `NOSTATUSCOMMENT`; otherwise
merge the detected status. -/
def checkStatusComment (a : IssueAnalysis) : List Op :=
  if a.CommentStatus = .NONE then [.addMessage "NOSTATUSCOMMENT"]
  else [.setStatus a.CommentStatus]

/-- `checkDesign`: feature work with no design document → not ready,
`NODESIGN`. -/
def checkDesign (a : IssueAnalysis) : List Op :=
  if !a.Issue.Planning.NoFeature && a.Issue.Design = "" then
    [.setReady false, .addMessage "NODESIGN"]
  else []

/-- The fixed, ordered list of rule evaluators registered in
`NewCheckResult` (the source comments out `checkPlanning` and
`checkStoryPoints`). -/
def checkList : List (IssueAnalysis → List Op) :=
  [checkAlongside, checkVersion, checkActivities, checkDescription,
   checkReadiness, checkApprovals, checkDeliveryOwner, checkQEAssignee,
   checkAcceptanceCriteria, checkPriority, checkStarted, checkImpediment,
   checkMarketProblem, checkIssueComponent, checkMultiComponent, checkDone,
   checkStartedStories, checkLinkedEpic, checkStatusComment, checkDesign]

/-- The fresh accumulator built at the top of `NewCheckResult`. -/
def initResult : CheckResult := ⟨true, .NONE, []⟩

/-- Run a list of rule evaluators, in order, on a fresh accumulator. -/
def runChecks (a : IssueAnalysis) (l : List (IssueAnalysis → List Op)) : CheckResult :=
  CheckResult.runOps initResult (List.flatten (List.map (fun c => c a) l))

/-- `func NewCheckResult(a *IssueAnalysis) *CheckResult`: Obsolete epics
short-circuit with the single `OBSOLETE` message; otherwise every registered
check runs in order. -/
def NewCheckResult (a : IssueAnalysis) : CheckResult :=
  if a.Issue.InStatus IssueStatusObsolete then initResult.AddMessage "OBSOLETE"
  else runChecks a checkList

/-! ### Basic facts about the status lattice and the accumulator mutators -/

theorem statusMax_none_left (s : CheckResultStatus) : statusMax .NONE s = s := by
  cases s <;> rfl

theorem statusMax_comm (a b : CheckResultStatus) : statusMax a b = statusMax b a := by
  cases a <;> cases b <;> rfl

theorem statusMax_assoc (a b c : CheckResultStatus) :
    statusMax (statusMax a b) c = statusMax a (statusMax b c) := by
  cases a <;> cases b <;> cases c <;> rfl

theorem sval_le_statusMax_left (a b : CheckResultStatus) :
    sval a ≤ sval (statusMax a b) := by
  cases a <;> cases b <;> decide

theorem SetReady_eq (r : CheckResult) (b : Bool) :
    r.SetReady b = ⟨r.Ready && b, r.Status, r.Messages⟩ := by
  cases r with
  | mk rd st ms => cases rd <;> cases b <;> simp [CheckResult.SetReady]

theorem SetStatus_eq (r : CheckResult) (s : CheckResultStatus) :
    r.SetStatus s = ⟨r.Ready, statusMax r.Status s, r.Messages⟩ := by
  cases r with
  | mk rd st ms =>
    by_cases h : sval st < sval s <;> simp [CheckResult.SetStatus, statusMax, h]

theorem AddMessage_eq (r : CheckResult) (m : String) :
    r.AddMessage m = ⟨r.Ready, r.Status, r.Messages ++ [m]⟩ := rfl

/-- The combined effect of a sequence of operations on the `Ready` flag:
the conjunction of all `setReady` arguments. -/
def readyStep (b : Bool) (op : Op) : Bool :=
  match op with
  | .setReady v => b && v
  | _ => b

def readyOutcome (ops : List Op) : Bool := List.foldl readyStep true ops

/-- The combined effect of a sequence of operations on the `Status` field:
the maximum of all `setStatus` arguments. -/
def statusStep (s : CheckResultStatus) (op : Op) : CheckResultStatus :=
  match op with
  | .setStatus v => statusMax s v
  | _ => s

def statusOutcome (ops : List Op) : CheckResultStatus :=
  List.foldl statusStep .NONE ops

theorem foldl_readyStep (ops : List Op) : ∀ b : Bool,
    List.foldl readyStep b ops = (b && readyOutcome ops) := by
  induction ops with
  | nil => intro b; simp [readyOutcome]
  | cons op t ih =>
    intro b
    show List.foldl readyStep (readyStep b op) t = (b && readyOutcome (op :: t))
    rw [ih (readyStep b op)]
    have h2 : readyOutcome (op :: t) = (readyStep true op && readyOutcome t) := by
      show List.foldl readyStep (readyStep true op) t = _
      rw [ih (readyStep true op)]
    rw [h2]
    cases op with
    | setReady v => cases b <;> cases v <;> simp [readyStep]
    | setStatus s => simp [readyStep]
    | addMessage m => simp [readyStep]

theorem foldl_statusStep (ops : List Op) : ∀ s : CheckResultStatus,
    List.foldl statusStep s ops = statusMax s (statusOutcome ops) := by
  induction ops with
  | nil => intro s; cases s <;> rfl
  | cons op t ih =>
    intro s
    show List.foldl statusStep (statusStep s op) t = statusMax s (statusOutcome (op :: t))
    rw [ih (statusStep s op)]
    have h2 : statusOutcome (op :: t) = statusMax (statusStep .NONE op) (statusOutcome t) := by
      show List.foldl statusStep (statusStep .NONE op) t = _
      rw [ih (statusStep .NONE op)]
    rw [h2]
    cases op <;>
      simp [statusStep, statusMax_none_left, statusMax_assoc]

theorem runOps_Ready (ops : List Op) : ∀ r : CheckResult,
    (r.runOps ops).Ready = (r.Ready && readyOutcome ops) := by
  induction ops with
  | nil => intro r; simp [CheckResult.runOps, readyOutcome]
  | cons op t ih =>
    intro r
    show ((r.applyOp op).runOps t).Ready = _
    rw [ih (r.applyOp op)]
    have h2 : readyOutcome (op :: t) = (readyStep true op && readyOutcome t) := by
      show List.foldl readyStep (readyStep true op) t = _
      rw [foldl_readyStep]
    rw [h2]
    cases op with
    | setReady v => simp [CheckResult.applyOp, SetReady_eq, readyStep, Bool.and_assoc]
    | setStatus s => simp [CheckResult.applyOp, SetStatus_eq, readyStep]
    | addMessage m => simp [CheckResult.applyOp, AddMessage_eq, readyStep]

theorem runOps_Status (ops : List Op) : ∀ r : CheckResult,
    (r.runOps ops).Status = statusMax r.Status (statusOutcome ops) := by
  induction ops with
  | nil => intro r; show r.Status = _; cases r.Status <;> rfl
  | cons op t ih =>
    intro r
    show ((r.applyOp op).runOps t).Status = _
    rw [ih (r.applyOp op)]
    have h2 : statusOutcome (op :: t) = statusMax (statusStep .NONE op) (statusOutcome t) := by
      show List.foldl statusStep (statusStep .NONE op) t = _
      rw [foldl_statusStep]
    rw [h2]
    cases op with
    | setReady v =>
      simp [CheckResult.applyOp, SetReady_eq, statusStep, statusMax_none_left]
    | setStatus s =>
      simp [CheckResult.applyOp, SetStatus_eq, statusStep, statusMax_none_left,
        statusMax_assoc]
    | addMessage m =>
      simp [CheckResult.applyOp, AddMessage_eq, statusStep, statusMax_none_left]

theorem runOps_append (r : CheckResult) (l₁ l₂ : List Op) :
    r.runOps (l₁ ++ l₂) = (r.runOps l₁).runOps l₂ :=
  List.foldl_append CheckResult.applyOp r l₁ l₂

/-- **C1.** For every `CheckResult` accumulator and every sequence of
`SetReady`/`SetStatus` calls performed by the rule evaluators, `ready` only
ever transitions true→false (a `SetReady true` call never restores it) and
`status` only ever increases along NONE < GREEN < YELLOW < RED (a `SetStatus`
call with a level not strictly above the current one leaves the accumulator
unchanged). -/
theorem checkResult_setters_monotone (r : CheckResult) (ops : List Op)
    (s : CheckResultStatus) :
    ((r.runOps ops).Ready = true → r.Ready = true)
    ∧ sval r.Status ≤ sval (r.runOps ops).Status
    ∧ r.SetReady true = r
    ∧ (sval s ≤ sval r.Status → r.SetStatus s = r) := by
  refine ⟨?_, ?_, ?_, ?_⟩
  · intro h
    rw [runOps_Ready] at h
    exact (Bool.and_eq_true _ _ |>.mp h).1
  · rw [runOps_Status]
    exact sval_le_statusMax_left _ _
  · rw [SetReady_eq]
    cases r
    simp
  · intro h
    unfold CheckResult.SetStatus
    rw [if_neg (by omega)]

theorem checkResult_setters_monotone_witness :
    (⟨true, .YELLOW, []⟩ : CheckResult).SetStatus .GREEN = ⟨true, .YELLOW, []⟩ :=
  (checkResult_setters_monotone ⟨true, .YELLOW, []⟩
    [.setReady false, .setStatus .RED] .GREEN).2.2.2 (by decide)

/-! ### C2: the Obsolete short-circuit -/

/-- **C2.** An epic in Obsolete status always yields `ready = true`,
`status = NONE` and exactly the one-element message list `["OBSOLETE"]`,
whatever the other fields of the analysis: no other rule runs. -/
theorem obsolete_short_circuit (a : IssueAnalysis)
    (h : a.Issue.InStatus IssueStatusObsolete = true) :
    NewCheckResult a = ⟨true, .NONE, ["OBSOLETE"]⟩ := by
  unfold NewCheckResult
  rw [if_pos h]
  rfl

/-- A fully populated sample epic in Obsolete status, with a linked issue
and non-trivial values in every other field. -/
def fieldsA : IssueFields :=
  { typeName := "Epic", status := some "Obsolete", resolution := some "Done",
    priority := some "High", description := "d", fixVersions := ["v1", "v2"],
    components := [], epicKey := none, commentsNil := false, projectKey := "P" }

def coreA : IssueCore :=
  { fields := fieldsA, StoryPoints := 5,
    Readiness := ⟨true, false, true, false, true, false⟩,
    Planning := ⟨false, true, false⟩,
    Approvals := ⟨true, true, false, true, true⟩,
    Design := "", QEAssignee := "", Acceptance := "", Owner := "",
    Impediment := true, marketProblem := none,
    Comments := [⟨"RED: blocked", 3⟩] }

def issueA : Issue :=
  .mk coreA [.mk { coreA with fields := { fieldsA with status := some "Done" } } []]

def analysisA : IssueAnalysis :=
  { Issue := issueA, Component := some "c", NumActivities := 0,
    IssuesCompletion := ⟨1, 2, 0⟩, PointsCompletion := ⟨0, 0, 1⟩,
    IssueNoComponent := true, CommentStatus := .RED, CommentDate := some 3 }

theorem obsolete_short_circuit_witness :
    NewCheckResult analysisA = ⟨true, .NONE, ["OBSOLETE"]⟩ :=
  obsolete_short_circuit analysisA (by decide)

/-! ### C3: the Done-consistency rule -/

theorem statusMax_red_right (s : CheckResultStatus) : statusMax s .RED = .RED := by
  cases s <;> rfl

/-- **C3.** For an epic in Done status, `checkDone` sets the status to RED and
appends `NOTDONE` exactly when the completed count differs from the total in
the issues completion or in the points completion; otherwise it merges GREEN
into the status (a no-op when a higher severity was already recorded).  For an
epic not in Done status the rule changes nothing. -/
theorem checkDone_characterization (a : IssueAnalysis) (r : CheckResult) :
    r.runOps (checkDone a) =
      (if a.Issue.InStatus IssueStatusDone then
        (if a.IssuesCompletion.Status ≠ a.IssuesCompletion.Total ∨
            a.PointsCompletion.Status ≠ a.PointsCompletion.Total then
          (⟨r.Ready, .RED, r.Messages ++ ["NOTDONE"]⟩ : CheckResult)
        else ⟨r.Ready, statusMax r.Status .GREEN, r.Messages⟩)
      else r) := by
  unfold checkDone
  by_cases hd : a.Issue.InStatus IssueStatusDone = true
  · by_cases hm : a.IssuesCompletion.Status ≠ a.IssuesCompletion.Total ∨
        a.PointsCompletion.Status ≠ a.PointsCompletion.Total
    · simp [hd, hm, CheckResult.runOps, CheckResult.applyOp, SetStatus_eq,
        AddMessage_eq, statusMax_red_right]
    · simp [hd, hm, CheckResult.runOps, CheckResult.applyOp, SetStatus_eq]
  · simp [hd, CheckResult.runOps]

/-! ### C6: the impediment rule counts Obsolete linked issues too -/

/-- Sample fields for a healthy In Progress epic. -/
def fieldsB : IssueFields :=
  { typeName := "Epic", status := some "In Progress", resolution := none,
    priority := some "High", description := "d", fixVersions := ["v1"],
    components := ["c"], epicKey := none, commentsNil := true, projectKey := "P" }

def coreB : IssueCore :=
  { fields := fieldsB, StoryPoints := -1,
    Readiness := ⟨true, true, true, true, true, true⟩,
    Planning := ⟨false, false, false⟩,
    Approvals := ⟨true, true, true, true, true⟩,
    Design := "D", QEAssignee := "q", Acceptance := "a", Owner := "o",
    Impediment := false, marketProblem := some "MP", Comments := [] }

/-- An Obsolete linked issue carrying the impediment flag. -/
def obsImpCore : IssueCore :=
  { coreB with Impediment := true, fields := { fieldsB with status := some "Obsolete" } }

def obsImpIssue : Issue := .mk obsImpCore []

/-- An epic without its own impediment whose only flagged linked issue is
Obsolete. -/
def issueC6 : Issue := .mk coreB [obsImpIssue]

def analysisC6 : IssueAnalysis :=
  { Issue := issueC6, Component := none, NumActivities := 1,
    IssuesCompletion := ⟨0, 1, 0⟩, PointsCompletion := ⟨0, 0, 0⟩,
    IssueNoComponent := false, CommentStatus := .NONE, CommentDate := none }

/-- **C6 (counterexample).** The claim says an impediment flag on an Obsolete
linked issue alone does not fire the rule; on this input the epic's own flag
is unset, every linked issue with the flag is Obsolete, and the rule fires
anyway (status RED, message `IMPEDIMENT`). -/
theorem checkImpediment_obsolete_counterexample :
    analysisC6.Issue.Impediment = false
    ∧ List.all analysisC6.Issue.linkedIssues
        (fun i => !(i.Impediment && !(i.InStatus IssueStatusObsolete))) = true
    ∧ (initResult.runOps (checkImpediment analysisC6)).Messages = ["IMPEDIMENT"]
    ∧ (initResult.runOps (checkImpediment analysisC6)).Status = .RED := by
  refine ⟨rfl, rfl, ?_, ?_⟩ <;> decide

/-- **C6 (amended).** The impediment rule sets status to RED and appends
`IMPEDIMENT` exactly when the epic's own impediment flag is set or some
linked issue — of any status, Obsolete included — has its impediment flag
set. -/
theorem checkImpediment_characterization (a : IssueAnalysis) (r : CheckResult) :
    (r.runOps (checkImpediment a) =
      (if a.Issue.Impediment || IssueCollection.AnyImpediment a.Issue.linkedIssues then
        (⟨r.Ready, .RED, r.Messages ++ ["IMPEDIMENT"]⟩ : CheckResult)
      else r))
    ∧ (IssueCollection.AnyImpediment a.Issue.linkedIssues = true ↔
        ∃ i ∈ a.Issue.linkedIssues, i.Impediment = true) := by
  constructor
  · unfold checkImpediment
    by_cases h : (a.Issue.Impediment ||
        IssueCollection.AnyImpediment a.Issue.linkedIssues) = true
    · simp [h, CheckResult.runOps, CheckResult.applyOp, SetStatus_eq,
        AddMessage_eq, statusMax_red_right]
    · simp [h, CheckResult.runOps]
  · unfold IssueCollection.AnyImpediment
    rw [List.any_eq_true]

theorem checkImpediment_characterization_witness :
    initResult.runOps (checkImpediment analysisC6) = ⟨true, .RED, ["IMPEDIMENT"]⟩ := by
  have h := (checkImpediment_characterization analysisC6 initResult).1
  rw [h]
  decide

/-! ### C10: totality of the per-issue comment scan -/

/-- **C10.** The per-issue comment scan is total at the public interface:
with a nil raw comments field, and likewise with an empty parsed comment
list, `getIssueCommentStatus` returns severity NONE and no timestamp. -/
theorem getIssueCommentStatus_total (i : Issue) :
    (i.Fields.commentsNil = true → getIssueCommentStatus i = (.NONE, none))
    ∧ (i.Comments = [] → getIssueCommentStatus i = (.NONE, none)) := by
  constructor
  · intro h
    unfold getIssueCommentStatus
    rw [if_pos h]
  · intro h
    unfold getIssueCommentStatus
    by_cases hn : i.Fields.commentsNil = true
    · rw [if_pos hn]
    · rw [if_neg hn, h]
      rfl

theorem getIssueCommentStatus_total_witness :
    getIssueCommentStatus (Issue.mk coreB []) = (.NONE, none) :=
  (getIssueCommentStatus_total (Issue.mk coreB [])).1 (by decide)

/-! ### C5: the story-point progress aggregation -/

/-- Spec-side characterization: the total story points over Story-typed,
non-Obsolete issues with a defined point value. -/
def specStoryPointsTotal (c : List Issue) : Int :=
  List.sum (List.map Issue.StoryPoints (List.filter
    (fun i => i.IsType IssueTypeStory && !(i.InStatus IssueStatusObsolete) &&
      i.HasStoryPoints) c))

/-- Spec-side characterization: the completed story points — those of the
counted issues that are additionally resolved as Done. -/
def specStoryPointsCompleted (c : List Issue) : Int :=
  List.sum (List.map Issue.StoryPoints (List.filter
    (fun i => i.IsType IssueTypeStory && !(i.InStatus IssueStatusObsolete) &&
      i.HasStoryPoints && i.IsResolved) c))

/-- Spec-side characterization: the number of Story-typed, non-Obsolete
issues lacking a defined point value. -/
def specStoryPointsUnknown (c : List Issue) : Int :=
  Int.ofNat (List.length (List.filter
    (fun i => i.IsType IssueTypeStory && !(i.InStatus IssueStatusObsolete) &&
      !i.HasStoryPoints) c))

theorem specStoryPointsTotal_cons (i : Issue) (t : List Issue) :
    specStoryPointsTotal (i :: t) =
      (if i.IsType IssueTypeStory && !(i.InStatus IssueStatusObsolete) &&
          i.HasStoryPoints then i.StoryPoints else 0) + specStoryPointsTotal t := by
  unfold specStoryPointsTotal
  rw [List.filter_cons]
  split <;> simp

theorem specStoryPointsCompleted_cons (i : Issue) (t : List Issue) :
    specStoryPointsCompleted (i :: t) =
      (if i.IsType IssueTypeStory && !(i.InStatus IssueStatusObsolete) &&
          i.HasStoryPoints && i.IsResolved then i.StoryPoints else 0) +
        specStoryPointsCompleted t := by
  unfold specStoryPointsCompleted
  rw [List.filter_cons]
  split <;> simp

theorem specStoryPointsUnknown_cons (i : Issue) (t : List Issue) :
    specStoryPointsUnknown (i :: t) =
      (if i.IsType IssueTypeStory && !(i.InStatus IssueStatusObsolete) &&
          !i.HasStoryPoints then 1 else 0) + specStoryPointsUnknown t := by
  unfold specStoryPointsUnknown
  rw [List.filter_cons]
  split
  · simp
    omega
  · simp

theorem storyPointsFold (c : List Issue) : ∀ p : Progress,
    List.foldl storyPointsStep p c =
      ⟨p.Status + specStoryPointsCompleted c, p.Total + specStoryPointsTotal c,
        p.Unknown + specStoryPointsUnknown c⟩ := by
  induction c with
  | nil =>
    intro p
    simp [specStoryPointsCompleted, specStoryPointsTotal, specStoryPointsUnknown]
  | cons i t ih =>
    intro p
    show List.foldl storyPointsStep (storyPointsStep p i) t = _
    rw [ih (storyPointsStep p i), specStoryPointsCompleted_cons,
      specStoryPointsTotal_cons, specStoryPointsUnknown_cons]
    by_cases hs : i.IsType IssueTypeStory = true
    · by_cases ho : i.InStatus IssueStatusObsolete = true
      · simp [storyPointsStep, hs, ho]
      · by_cases hp : i.HasStoryPoints = true
        · by_cases hr : i.IsResolved = true
          · simp [storyPointsStep, hs, ho, hp, hr]
            omega
          · simp [storyPointsStep, hs, ho, hp, hr]
            omega
        · simp [storyPointsStep, hs, ho, hp]
          omega
    · simp [storyPointsStep, hs]

theorem specStoryPoints_le (c : List Issue) :
    specStoryPointsCompleted c ≤ specStoryPointsTotal c := by
  induction c with
  | nil => simp [specStoryPointsCompleted, specStoryPointsTotal]
  | cons i t ih =>
    rw [specStoryPointsCompleted_cons, specStoryPointsTotal_cons]
    by_cases hp : (i.IsType IssueTypeStory && !(i.InStatus IssueStatusObsolete) &&
        i.HasStoryPoints) = true
    · have hsp : 0 ≤ i.StoryPoints := by
        have h3 : i.HasStoryPoints = true := by
          simp only [Bool.and_eq_true] at hp
          exact hp.2
        unfold Issue.HasStoryPoints NoStoryPoints at h3
        simp at h3
        omega
      by_cases hr : i.IsResolved = true
      · simp [hp, hr]
        omega
      · simp [hp, hr]
        omega
    · have hp2 : (i.IsType IssueTypeStory && !(i.InStatus IssueStatusObsolete) &&
          i.HasStoryPoints) = false := Bool.eq_false_iff.mpr hp
      simp [hp2]
      exact ih

/-- **C5.** For every issue collection, `StoryPointsProgress` skips issues
that are not Story-typed or are Obsolete; a remaining issue with a defined
story-point value adds that value to the total, and to the completed count
exactly when its resolution is Done; a remaining issue with the
unknown-points sentinel increments the unknown counter instead — hence
completed ≤ total always holds. -/
theorem storyPointsProgress_characterization (c : IssueCollection) :
    (IssueCollection.StoryPointsProgress c).Status ≤
      (IssueCollection.StoryPointsProgress c).Total
    ∧ (IssueCollection.StoryPointsProgress c).Total = specStoryPointsTotal c
    ∧ (IssueCollection.StoryPointsProgress c).Status = specStoryPointsCompleted c
    ∧ (IssueCollection.StoryPointsProgress c).Unknown = specStoryPointsUnknown c := by
  have h := storyPointsFold c ⟨0, 0, 0⟩
  unfold IssueCollection.StoryPointsProgress
  rw [h]
  refine ⟨by simpa using specStoryPoints_le c, by simp, by simp, by simp⟩

/-! ### C7: the activity count and the Activities rule -/

/-- A Bug-typed, non-Obsolete linked issue — not counted as an activity by
the source filter. -/
def bugIssue : Issue :=
  .mk { coreB with fields := { fieldsB with typeName := "Bug" } } []

/-- An Epic whose only linked issue is a non-Obsolete Bug. -/
def issueC7 : Issue := .mk coreB [bugIssue]

/-- **C7 (counterexample).** The claim counts Bug issues among the
activities, so an Epic whose scoped collection contains a Bug must not fire
the Activities rule; on this input the scoped collection contains a
Bug-typed issue, yet the source activity filter (Story or Task only) yields
`NumActivities = 0` and the rule fires (not ready, `NOSTORIES`). -/
theorem checkActivities_bug_counterexample :
    issueC7.IsType IssueTypeEpic = true
    ∧ List.any (scopedIssues issueC7 none) (fun i => i.IsType IssueTypeBug) = true
    ∧ (NewIssueAnalysis issueC7 none).NumActivities = 0
    ∧ (initResult.runOps (checkActivities (NewIssueAnalysis issueC7 none))).Ready = false
    ∧ (initResult.runOps (checkActivities
        (NewIssueAnalysis issueC7 none))).Messages = ["NOSTORIES"] := by
  refine ⟨rfl, rfl, rfl, ?_, ?_⟩ <;> decide

/-- **C7 (amended).** `numActivities` equals the number of issues in the
scoped linked-issue collection whose type is Story or Task — Bug-typed
issues are not counted — and consequently the Activities rule fires (not
ready, message `NOSTORIES`) for an Epic exactly when the scoped collection
contains no Story- or Task-typed issue. -/
theorem numActivities_characterization (issue : Issue) (comp : Option String)
    (r : CheckResult) :
    (NewIssueAnalysis issue comp).NumActivities =
      Int.ofNat (List.length (List.filter isActivity (scopedIssues issue comp)))
    ∧ r.runOps (checkActivities (NewIssueAnalysis issue comp)) =
      (if issue.IsType IssueTypeEpic = true ∧
          ¬∃ i ∈ scopedIssues issue comp, isActivity i = true then
        (⟨false, r.Status, r.Messages ++ ["NOSTORIES"]⟩ : CheckResult)
      else r) := by
  refine ⟨rfl, ?_⟩
  have hnum : (NewIssueAnalysis issue comp).NumActivities =
      Int.ofNat (List.length (List.filter isActivity (scopedIssues issue comp))) := rfl
  have hiss : (NewIssueAnalysis issue comp).Issue = issue := rfl
  unfold checkActivities
  rw [hnum, hiss]
  by_cases he : issue.IsType IssueTypeEpic = true
  · by_cases hx : ∃ i ∈ scopedIssues issue comp, isActivity i = true
    · have hcond : ¬((issue.IsType IssueTypeEpic &&
          decide (Int.ofNat (List.length (List.filter isActivity
            (scopedIssues issue comp))) = 0)) = true) := by
        simp
        exact fun _ => hx
      have hni : ¬(issue.IsType IssueTypeEpic = true ∧
          ¬∃ i ∈ scopedIssues issue comp, isActivity i = true) := fun hc => hc.2 hx
      rw [if_neg hcond, if_neg hni]
      simp [CheckResult.runOps]
    · have hnil : List.filter isActivity (scopedIssues issue comp) = [] := by
        rw [List.filter_eq_nil_iff]
        intro i hi ha
        exact hx ⟨i, hi, ha⟩
      have hcond : (issue.IsType IssueTypeEpic &&
          decide (Int.ofNat (List.length (List.filter isActivity
            (scopedIssues issue comp))) = 0)) = true := by
        rw [hnil]
        simp [he]
      rw [if_pos hcond, if_pos ⟨he, hx⟩]
      simp [CheckResult.runOps, CheckResult.applyOp, SetReady_eq, AddMessage_eq]
  · have hcond : ¬((issue.IsType IssueTypeEpic &&
        decide (Int.ofNat (List.length (List.filter isActivity
          (scopedIssues issue comp))) = 0)) = true) := by
      simp [Bool.eq_false_iff.mpr he]
    have hni : ¬(issue.IsType IssueTypeEpic = true ∧
        ¬∃ i ∈ scopedIssues issue comp, isActivity i = true) := fun hc => he hc.1
    rw [if_neg hcond, if_neg hni]
    simp [CheckResult.runOps]

/-! ### C8: the missing-component flag -/

/-- A linked issue with zero components that belongs to a different project. -/
def otherProjIssue : Issue :=
  .mk { coreB with fields := { fieldsB with components := [], projectKey := "Q" } } []

/-- An epic in project "P" whose only linked issue is `otherProjIssue`. -/
def issueC8 : Issue := .mk coreB [otherProjIssue]

/-- **C8 (counterexample).** Every linked issue of this epic lies in a
different project than the epic, so per the claim the flag must stay false;
the source loop performs no project comparison and sets it. -/
theorem issueNoComponent_project_counterexample :
    List.all (allLinkedIssues issueC8)
      (fun i => !(decide (i.Fields.projectKey = issueC8.Fields.projectKey))) = true
    ∧ (NewIssueAnalysis issueC8 none).IssueNoComponent = true := by
  refine ⟨rfl, ?_⟩
  decide

/-- **C8 (amended).** The `issueNoComponent` flag is true iff some
non-Obsolete linked issue has zero components assigned — regardless of which
project that issue belongs to. -/
theorem issueNoComponent_characterization (issue : Issue) (comp : Option String) :
    (NewIssueAnalysis issue comp).IssueNoComponent = true ↔
      ∃ i ∈ allLinkedIssues issue, i.Fields.components = [] := by
  have hflag : (NewIssueAnalysis issue comp).IssueNoComponent =
      List.any (allLinkedIssues issue)
        (fun i => List.isEmpty i.Fields.components) := rfl
  rw [hflag, List.any_eq_true]
  constructor
  · rintro ⟨i, hi, hp⟩
    exact ⟨i, hi, List.isEmpty_iff.mp hp⟩
  · rintro ⟨i, hi, hp⟩
    exact ⟨i, hi, List.isEmpty_iff.mpr hp⟩

theorem issueNoComponent_characterization_witness :
    (NewIssueAnalysis issueC8 none).IssueNoComponent = true :=
  (issueNoComponent_characterization issueC8 none).mpr
    ⟨otherProjIssue,
      by
        have h : allLinkedIssues issueC8 = [otherProjIssue] := rfl
        rw [h]
        exact List.mem_singleton.mpr rfl,
      rfl⟩

/-! ### C4: the comment-status scan and its aggregation -/

theorem sval_inj (a b : CheckResultStatus) (h : sval a = sval b) : a = b := by
  cases a <;> cases b <;> first | rfl | exact absurd h (by decide)

/-- Spec-side characterization of the per-issue scan: the first comment, in
most-recent-to-oldest order, whose body carries a recognized severity prefix
determines the result. -/
def specCommentScan (issue : Issue) : CheckResultStatus × Option Nat :=
  match List.find? (fun c => decide (commentSeverity c ≠ .NONE)) issue.Comments.reverse with
  | some c => (commentSeverity c, some c.updated)
  | none => (.NONE, none)

theorem commentScan_eq_find (l : List Comment) :
    commentScan l =
      match List.find? (fun c => decide (commentSeverity c ≠ .NONE)) l with
      | some c => (commentSeverity c, some c.updated)
      | none => (.NONE, none) := by
  induction l with
  | nil => rfl
  | cons c rest ih =>
    by_cases hg : hasPrefix c.body "GREEN:" = true
    · have hsev : commentSeverity c = .GREEN := by simp [commentSeverity, hg]
      have hfind : List.find? (fun c => decide (commentSeverity c ≠ .NONE)) (c :: rest) =
          some c := List.find?_cons_of_pos rest (by simp [hsev])
      simp [commentScan, hg, hfind, hsev]
    · by_cases hy : hasPrefix c.body "YELLOW:" = true
      · have hsev : commentSeverity c = .YELLOW := by simp [commentSeverity, hg, hy]
        have hfind : List.find? (fun c => decide (commentSeverity c ≠ .NONE)) (c :: rest) =
            some c := List.find?_cons_of_pos rest (by simp [hsev])
        simp [commentScan, hg, hy, hfind, hsev]
      · by_cases hr : hasPrefix c.body "RED:" = true
        · have hsev : commentSeverity c = .RED := by simp [commentSeverity, hg, hy, hr]
          have hfind : List.find? (fun c => decide (commentSeverity c ≠ .NONE)) (c :: rest) =
              some c := List.find?_cons_of_pos rest (by simp [hsev])
          simp [commentScan, hg, hy, hr, hfind, hsev]
        · have hsev : commentSeverity c = .NONE := by simp [commentSeverity, hg, hy, hr]
          have hfind : List.find? (fun c => decide (commentSeverity c ≠ .NONE)) (c :: rest) =
              List.find? (fun c => decide (commentSeverity c ≠ .NONE)) rest :=
            List.find?_cons_of_neg rest (by simp [hsev])
          simp only [commentScan, hg, hy, hr, if_false, Bool.false_eq_true, hfind]
          rw [ih]

theorem aggFold_fst_mono (l : List Issue) : ∀ acc : CheckResultStatus × Option Nat,
    sval acc.1 ≤ sval (List.foldl aggStep acc l).1 := by
  induction l with
  | nil => intro acc; exact Nat.le_refl _
  | cons i t ih =>
    intro acc
    rw [List.foldl_cons]
    by_cases hc : sval (getIssueCommentStatus i).1 > sval acc.1
    · have hstep : aggStep acc i = getIssueCommentStatus i := by
        unfold aggStep
        rw [if_pos hc]
      rw [hstep]
      exact Nat.le_trans (Nat.le_of_lt hc) (ih _)
    · have hstep : aggStep acc i = acc := by
        unfold aggStep
        rw [if_neg hc]
      rw [hstep]
      exact ih acc

theorem aggFold_fix (l : List Issue) : ∀ acc : CheckResultStatus × Option Nat,
    (List.foldl aggStep acc l).1 = acc.1 → List.foldl aggStep acc l = acc := by
  induction l with
  | nil => intro acc _; rfl
  | cons i t ih =>
    intro acc h
    rw [List.foldl_cons] at h ⊢
    by_cases hc : sval (getIssueCommentStatus i).1 > sval acc.1
    · exfalso
      have hstep : aggStep acc i = getIssueCommentStatus i := by
        unfold aggStep
        rw [if_pos hc]
      rw [hstep] at h
      have := aggFold_fst_mono t (getIssueCommentStatus i)
      rw [h] at this
      omega
    · have hstep : aggStep acc i = acc := by
        unfold aggStep
        rw [if_neg hc]
      rw [hstep] at h ⊢
      exact ih acc h

theorem aggFold_ub (l : List Issue) : ∀ (acc : CheckResultStatus × Option Nat)
    (i : Issue), i ∈ l →
    sval (getIssueCommentStatus i).1 ≤ sval (List.foldl aggStep acc l).1 := by
  induction l with
  | nil => intro acc i hi; exact absurd hi (List.not_mem_nil i)
  | cons j t ih =>
    intro acc i hi
    rw [List.foldl_cons]
    rcases List.mem_cons.mp hi with he | ht
    · rw [he]
      have h1 : sval (getIssueCommentStatus j).1 ≤ sval (aggStep acc j).1 := by
        unfold aggStep
        by_cases hc : sval (getIssueCommentStatus j).1 > sval acc.1
        · rw [if_pos hc]
        · rw [if_neg hc]
          omega
      exact Nat.le_trans h1 (aggFold_fst_mono t (aggStep acc j))
    · exact ih (aggStep acc j) i ht

theorem aggFold_first (l : List Issue) : ∀ acc : CheckResultStatus × Option Nat,
    sval acc.1 < sval (List.foldl aggStep acc l).1 →
    ∃ k, List.find? (fun j => decide ((getIssueCommentStatus j).1 =
        (List.foldl aggStep acc l).1)) l = some k ∧
      List.foldl aggStep acc l = getIssueCommentStatus k := by
  induction l with
  | nil => intro acc h; exact absurd h (Nat.lt_irrefl _)
  | cons i t ih =>
    intro acc h
    by_cases hc : sval (getIssueCommentStatus i).1 > sval acc.1
    · have hstep : aggStep acc i = getIssueCommentStatus i := by
        unfold aggStep
        rw [if_pos hc]
      have hl : List.foldl aggStep acc (i :: t) =
          List.foldl aggStep (getIssueCommentStatus i) t := by
        rw [List.foldl_cons, hstep]
      by_cases h2 : sval (getIssueCommentStatus i).1 <
          sval (List.foldl aggStep (getIssueCommentStatus i) t).1
      · obtain ⟨k, hk1, hk2⟩ := ih (getIssueCommentStatus i) h2
        refine ⟨k, ?_, ?_⟩
        · rw [hl]
          have hne : ¬((getIssueCommentStatus i).1 =
              (List.foldl aggStep (getIssueCommentStatus i) t).1) := by
            intro heq
            rw [heq] at h2
            exact Nat.lt_irrefl _ h2
          rw [List.find?_cons_of_neg t (by simp [hne])]
          exact hk1
        · rw [hl]
          exact hk2
      · have hle : sval (getIssueCommentStatus i).1 ≤
            sval (List.foldl aggStep (getIssueCommentStatus i) t).1 :=
          aggFold_fst_mono t (getIssueCommentStatus i)
        have heq : (List.foldl aggStep (getIssueCommentStatus i) t).1 =
            (getIssueCommentStatus i).1 :=
          sval_inj _ _ (Nat.le_antisymm (Nat.not_lt.mp h2) hle)
        have hfixed : List.foldl aggStep (getIssueCommentStatus i) t =
            getIssueCommentStatus i := aggFold_fix t _ heq
        refine ⟨i, ?_, ?_⟩
        · rw [hl, hfixed]
          exact List.find?_cons_of_pos t (by simp)
        · rw [hl, hfixed]
    · have hstep : aggStep acc i = acc := by
        unfold aggStep
        rw [if_neg hc]
      have hl : List.foldl aggStep acc (i :: t) = List.foldl aggStep acc t := by
        rw [List.foldl_cons, hstep]
      rw [hl] at h ⊢
      obtain ⟨k, hk1, hk2⟩ := ih acc h
      refine ⟨k, ?_, hk2⟩
      have hne : ¬((getIssueCommentStatus i).1 = (List.foldl aggStep acc t).1) := by
        intro heq
        have : sval (getIssueCommentStatus i).1 ≤ sval acc.1 := Nat.not_lt.mp hc
        rw [heq] at this
        omega
      rw [List.find?_cons_of_neg t (by simp [hne])]
      exact hk1

/-- **C4.** The per-issue comment scan traverses the comment list from most
recent to oldest and returns the severity and last-updated timestamp of the
first comment whose body begins with `"GREEN:"`, `"YELLOW:"` or `"RED:"`,
skipping unrecognized comments and yielding no signal when none matches;
across a scope of issues the aggregation keeps the highest-severity signal
with the first issue encountered winning ties (strict greater-than
comparison), so in particular a newer GREEN comment on the same issue beats
an older RED one. -/
theorem commentStatus_characterization (i : Issue) (issues : List Issue) (j : Issue) :
    (i.Fields.commentsNil = false → getIssueCommentStatus i = specCommentScan i)
    ∧ (j ∈ issues →
        sval (getIssueCommentStatus j).1 ≤ sval (aggregateCommentStatus issues).1)
    ∧ ((aggregateCommentStatus issues).1 ≠ .NONE →
        ∃ k, List.find? (fun x => decide ((getIssueCommentStatus x).1 =
            (aggregateCommentStatus issues).1)) issues = some k ∧
          aggregateCommentStatus issues = getIssueCommentStatus k)
    ∧ (∀ cOld cNew : Comment, i.Fields.commentsNil = false →
        i.Comments = [cOld, cNew] → hasPrefix cOld.body "RED:" = true →
        hasPrefix cNew.body "GREEN:" = true →
        getIssueCommentStatus i = (.GREEN, some cNew.updated)) := by
  refine ⟨?_, ?_, ?_, ?_⟩
  · intro h
    unfold getIssueCommentStatus specCommentScan
    rw [if_neg (by simp [h])]
    exact commentScan_eq_find i.Comments.reverse
  · intro hj
    exact aggFold_ub issues (.NONE, none) j hj
  · intro hne
    have h0 : sval ((.NONE, none) :
        CheckResultStatus × Option Nat).1 < sval (aggregateCommentStatus issues).1 := by
      rcases h : (aggregateCommentStatus issues).1 with _ | _ | _ | _
      · exact absurd h hne
      all_goals simp [sval]
    exact aggFold_first issues (.NONE, none) h0
  · intro cOld cNew hnil hcm hred hgreen
    unfold getIssueCommentStatus
    rw [if_neg (by simp [hnil]), hcm]
    have : ([cOld, cNew] : List Comment).reverse = [cNew, cOld] := by simp
    rw [this]
    simp [commentScan, hgreen]

/-- An issue whose comments are an older RED signal followed by a newer
GREEN one. -/
def commentRed : Comment := ⟨"RED: blocked", 3⟩

def commentGreen : Comment := ⟨"GREEN: on track", 7⟩

def c4Core : IssueCore :=
  { coreB with fields := { fieldsB with commentsNil := false }, Comments := [commentRed, commentGreen] }

def c4Issue : Issue := .mk c4Core []

theorem commentStatus_characterization_witness :
    getIssueCommentStatus c4Issue = (.GREEN, some 7)
    ∧ sval (getIssueCommentStatus c4Issue).1 ≤
        sval (aggregateCommentStatus [c4Issue]).1 :=
  ⟨(commentStatus_characterization c4Issue [c4Issue] c4Issue).2.2.2
      commentRed commentGreen rfl rfl (by unfold commentRed; rfl)
      (by unfold commentGreen; rfl),
    (commentStatus_characterization c4Issue [c4Issue] c4Issue).2.1
      (List.mem_singleton.mpr rfl)⟩

/-! ### C9: the ready/status merges are order-independent -/

theorem readyOutcome_append (x y : List Op) :
    readyOutcome (x ++ y) = (readyOutcome x && readyOutcome y) := by
  unfold readyOutcome
  rw [List.foldl_append, foldl_readyStep]
  rfl

theorem statusOutcome_append (x y : List Op) :
    statusOutcome (x ++ y) = statusMax (statusOutcome x) (statusOutcome y) := by
  unfold statusOutcome
  rw [List.foldl_append, foldl_statusStep]
  rfl

theorem bool_and_right_comm (a b c : Bool) : ((a && b) && c) = ((a && c) && b) := by
  cases a <;> cases b <;> cases c <;> rfl

theorem statusMax_right_comm (a b c : CheckResultStatus) :
    statusMax (statusMax a b) c = statusMax (statusMax a c) b := by
  cases a <;> cases b <;> cases c <;> rfl

theorem foldl_and_init {α : Type} (g : α → Bool) (t : List α) : ∀ b : Bool,
    List.foldl (fun x c => x && g c) b t =
      (b && List.foldl (fun x c => x && g c) true t) := by
  induction t with
  | nil => intro b; simp
  | cons c t ih =>
    intro b
    rw [List.foldl_cons, List.foldl_cons, ih (b && g c), ih (true && g c)]
    simp [Bool.and_assoc]

theorem foldl_statusMax_init {α : Type} (g : α → CheckResultStatus) (t : List α) :
    ∀ s : CheckResultStatus,
    List.foldl (fun x c => statusMax x (g c)) s t =
      statusMax s (List.foldl (fun x c => statusMax x (g c)) .NONE t) := by
  induction t with
  | nil => intro s; cases s <;> rfl
  | cons c t ih =>
    intro s
    rw [List.foldl_cons, List.foldl_cons, ih (statusMax s (g c)),
      ih (statusMax .NONE (g c))]
    rw [statusMax_none_left, statusMax_assoc]

theorem foldl_perm {α β : Type} (f : β → α → β)
    (hf : ∀ (b : β) (x y : α), f (f b x) y = f (f b y) x)
    {l₁ l₂ : List α} (p : List.Perm l₁ l₂) : ∀ b : β,
    List.foldl f b l₁ = List.foldl f b l₂ := by
  induction p with
  | nil => intro b; rfl
  | cons x _ ih => intro b; rw [List.foldl_cons, List.foldl_cons, ih]
  | swap x y l => intro b; rw [List.foldl_cons, List.foldl_cons, List.foldl_cons,
      List.foldl_cons, hf]
  | trans _ _ ih1 ih2 => intro b; rw [ih1, ih2]

theorem runChecks_Ready (a : IssueAnalysis) : ∀ m : List (IssueAnalysis → List Op),
    (runChecks a m).Ready =
      List.foldl (fun b c => b && readyOutcome (c a)) true m := by
  have hjoin : ∀ m : List (IssueAnalysis → List Op),
      readyOutcome (List.flatten (List.map (fun c => c a) m)) =
        List.foldl (fun b c => b && readyOutcome (c a)) true m := by
    intro m
    induction m with
    | nil => rfl
    | cons c t ih =>
      rw [List.map_cons, List.flatten_cons, readyOutcome_append, ih,
        List.foldl_cons]
      rw [foldl_and_init (fun x => readyOutcome (x a)) t (true && readyOutcome (c a))]
      simp
  intro m
  unfold runChecks
  rw [runOps_Ready, hjoin]
  simp [initResult]

theorem runChecks_Status (a : IssueAnalysis) : ∀ m : List (IssueAnalysis → List Op),
    (runChecks a m).Status =
      List.foldl (fun s c => statusMax s (statusOutcome (c a))) .NONE m := by
  have hjoin : ∀ m : List (IssueAnalysis → List Op),
      statusOutcome (List.flatten (List.map (fun c => c a) m)) =
        List.foldl (fun s c => statusMax s (statusOutcome (c a))) .NONE m := by
    intro m
    induction m with
    | nil => rfl
    | cons c t ih =>
      rw [List.map_cons, List.flatten_cons, statusOutcome_append, ih,
        List.foldl_cons]
      rw [statusMax_none_left,
        foldl_statusMax_init (fun x => statusOutcome (x a)) t (statusOutcome (c a))]
  intro m
  unfold runChecks
  rw [runOps_Status, hjoin]
  show statusMax (initResult.Status) _ = _
  rw [show initResult.Status = CheckResultStatus.NONE from rfl, statusMax_none_left]

/-- **C9.** The ready and status merges are associative and commutative in
effect: running the rule evaluators in any order (any permutation of the
registered check list) yields a final `ready` equal to the AND of the
per-rule ready outcomes and a final `status` equal to the maximum of the
per-rule status outcomes — both expressed over the canonical check list, so
the result does not depend on evaluation order. -/
theorem checks_order_independent (a : IssueAnalysis)
    (l : List (IssueAnalysis → List Op)) (hp : List.Perm l checkList) :
    (runChecks a l).Ready =
      List.foldl (fun b c => b && readyOutcome (c a)) true checkList
    ∧ (runChecks a l).Status =
      List.foldl (fun s c => statusMax s (statusOutcome (c a))) .NONE checkList := by
  constructor
  · rw [runChecks_Ready a l]
    exact foldl_perm (fun b c => b && readyOutcome (c a))
      (fun b x y => bool_and_right_comm b (readyOutcome (x a)) (readyOutcome (y a)))
      hp true
  · rw [runChecks_Status a l]
    exact foldl_perm (fun s c => statusMax s (statusOutcome (c a)))
      (fun s x y => statusMax_right_comm s (statusOutcome (x a)) (statusOutcome (y a)))
      hp CheckResultStatus.NONE

/-- The registered check list with its first two rules exchanged. -/
def swappedCheckList : List (IssueAnalysis → List Op) :=
  [checkVersion, checkAlongside, checkActivities, checkDescription,
   checkReadiness, checkApprovals, checkDeliveryOwner, checkQEAssignee,
   checkAcceptanceCriteria, checkPriority, checkStarted, checkImpediment,
   checkMarketProblem, checkIssueComponent, checkMultiComponent, checkDone,
   checkStartedStories, checkLinkedEpic, checkStatusComment, checkDesign]

theorem checks_order_independent_witness :
    (runChecks analysisC6 swappedCheckList).Ready =
      List.foldl (fun b c => b && readyOutcome (c analysisC6)) true checkList
    ∧ (runChecks analysisC6 swappedCheckList).Status =
      List.foldl (fun s c => statusMax s (statusOutcome (c analysisC6))) .NONE checkList :=
  checks_order_independent analysisC6 swappedCheckList
    (by unfold swappedCheckList checkList; exact List.Perm.swap _ _ _)

end Jiracsv
